import Mathlib

/-!
Verification of `flow.py`: a flow-log classifier that builds a lookup table
from CSV rows, counts tag occurrences and (port, protocol) pair occurrences
over whitespace-tokenized flow-log lines, and renders a two-section CSV
report.  Python dicts preserve insertion order, so they are embedded as
association lists where insertion updates the first matching key in place
and appends new keys at the end.
-/

namespace Flow

/-- First-match lookup in an association list, i.e. Python `dict.get` /
`dict.__getitem__` (keys are unique in an actual dict, so first match is
the match). -/
def lookupGet {α β : Type} [DecidableEq α] : List (α × β) → α → Option β
  | [], _ => none
  | (k', v) :: rest, k => if k = k' then some v else lookupGet rest k

/-- Python `d[k] = v`: replace the value at the first occurrence of `k`
keeping its position, else append `(k, v)` at the end. -/
def insertAssoc {α β : Type} [DecidableEq α] : List (α × β) → α → β → List (α × β)
  | [], k, v => [(k, v)]
  | (k', v') :: rest, k, v =>
    if k = k' then (k', v) :: rest else (k', v') :: insertAssoc rest k v

/-- Python `defaultdict(int)` increment `d[k] += 1`: bump the first entry
with key `k`, or append `(k, 1)` when `k` is new. -/
def bump {α : Type} [DecidableEq α] : List (α × Nat) → α → List (α × Nat)
  | [], k => [(k, 1)]
  | (k', v) :: rest, k =>
    if k = k' then (k', v + 1) :: rest else (k', v) :: bump rest k

/-- Reading a counter with zero default, i.e. the observable value of a
`defaultdict(int)` entry. -/
def countOf {α : Type} [DecidableEq α] (m : List (α × Nat)) (k : α) : Nat :=
  (lookupGet m k).getD 0

/-- One CSV row as handed out by `csv.DictReader`: an association of field
names to field values. -/
abbrev Row : Type := List (String × String)

/-- `row[name]` as an option: `some` when the field is present, `none` when
Python would raise `KeyError`. -/
def getField (row : Row) (name : String) : Option String :=
  lookupGet row name

/-- Python `str.lower()`, character-wise (the inputs in scope are ASCII
protocol names). -/
def pyLower (s : String) : String := String.mk (s.data.map Char.toLower)

/-- One iteration of the `for row in reader` loop of `parse_lookup_table`
(flow.py lines 25-28), threading the dict built so far.  A missing field
is Python's `KeyError`, modelled as `Except.error`, which aborts the
loop. -/
def parse_lookup_aux :
    List ((String × String) × String) → List Row →
      Except String (List ((String × String) × String))
  | lookup, [] => Except.ok lookup
  | lookup, row :: rest =>
    match getField row "dstport", getField row "protocol",
          getField row "tag" with
    | some dp, some pr, some tg =>
        parse_lookup_aux (insertAssoc lookup (dp, pyLower pr) tg) rest
    | _, _, _ => Except.error "KeyError"

/-- `parse_lookup_table` (flow.py lines 22-29): fold the rows into a dict
keyed by `(row['dstport'], row['protocol'].lower())` with value
`row['tag']`. -/
def parse_lookup_table (rows : List Row) :
    Except String (List ((String × String) × String)) :=
  parse_lookup_aux [] rows

/-- The `(dstport, lowercased protocol)` key a lookup row contributes, when
both fields are present. -/
def keyOf (row : Row) : Option (String × String) :=
  match getField row "dstport", getField row "protocol" with
  | some dp, some pr => some (dp, pyLower pr)
  | _, _ => none

/-- A lookup row carrying all three required fields. -/
def rowOk (row : Row) : Bool :=
  (getField row "dstport").isSome && (getField row "protocol").isSome &&
    (getField row "tag").isSome

/-- The tag of the last row of `rows` whose key is `k` (with a missing tag
field reading as no contribution), i.e. the value a last-write-wins store
ends up with. -/
def lastTagFor (rows : List Row) (k : String × String) : Option String :=
  match rows with
  | [] => none
  | r :: rest =>
    match lastTagFor rest k with
    | some tg => some tg
    | none => if keyOf r = some k then getField r "tag" else none

/-- `protocol_map` (flow.py line 50): only TCP is mapped. -/
def protocol_map : List (String × String) := [("6", "tcp")]

/-- `valid_ports` (flow.py line 53). -/
def valid_ports : List String :=
  ["22", "23", "25", "80", "110", "143", "443", "993", "1024", "49158"]

/-- The three accumulators of `parse_flow_logs` (flow.py lines 45-47). -/
structure Counts where
  tag_counts : List (String × Nat)
  port_protocol_counts : List ((String × String) × Nat)
  untagged_count : Nat
deriving DecidableEq

/-- The accumulators start empty. -/
def initCounts : Counts := ⟨[], [], 0⟩

/-- Python `line.strip().split()`: split on runs of whitespace, dropping
empty tokens. -/
def splitWsAux : List Char → List Char → List String
  | [], [] => []
  | [], acc => [String.mk acc.reverse]
  | c :: cs, acc =>
    if c.isWhitespace then
      match acc with
      | [] => splitWsAux cs []
      | _ => String.mk acc.reverse :: splitWsAux cs []
    else splitWsAux cs (c :: acc)

/-- Whitespace tokenization of one flow-log line. -/
def splitWs (s : String) : List String := splitWsAux s.data []

/-- The body of the `for line in f` loop of `parse_flow_logs`
(flow.py lines 57-89), acting on the already-split token list. -/
def processParts (lookup : List ((String × String) × String)) (st : Counts)
    (parts : List String) : Counts :=
  if parts.length < 13 then st
  else
    let dstport := parts.getD 5 ""
    let protocol_num := parts.getD 7 ""
    match lookupGet protocol_map protocol_num with
    | none => { st with untagged_count := st.untagged_count + 1 }
    | some protocol =>
      if dstport ∈ valid_ports then
        let tag := (lookupGet lookup (dstport, protocol)).getD "Untagged"
        if tag ≠ "Untagged" then
          { st with
            tag_counts := bump st.tag_counts tag,
            port_protocol_counts :=
              bump st.port_protocol_counts (dstport, protocol) }
        else
          { st with
            untagged_count := st.untagged_count + 1,
            port_protocol_counts :=
              bump st.port_protocol_counts (dstport, protocol) }
      else { st with untagged_count := st.untagged_count + 1 }

/-- One iteration of the loop on a raw line. -/
def processLine (lookup : List ((String × String) × String)) (st : Counts)
    (line : String) : Counts :=
  processParts lookup st (splitWs line)

/-- `parse_flow_logs` (flow.py lines 31-91) over the list of lines of the
flow-log file. -/
def parse_flow_logs (lookup : List ((String × String) × String))
    (lines : List String) : Counts :=
  lines.foldl (processLine lookup) initCounts

/-- CSV field quoting as done by Python's `csv.writer` defaults: fields
containing the delimiter, the quote char, or a line break are quoted, with
embedded quotes doubled. -/
def quoteField (s : String) : String :=
  if s.data.any (fun c => c = ',' ∨ c = '"' ∨ c = '\n' ∨ c = '\r') then
    "\"" ++ String.mk (s.data.foldr
      (fun c acc => if c = '"' then '"' :: '"' :: acc else c :: acc) [])
      ++ "\""
  else s

/-- `write_output` (flow.py lines 93-119) at the row level: the sequence of
`writer.writerow` calls. -/
def write_output (tag_counts : List (String × Nat))
    (port_protocol_counts : List ((String × String) × Nat))
    (untagged_count : Nat) : List (List String) :=
  [["Tag Counts:"], ["Tag", "Count"]]
    ++ tag_counts.map (fun p => [p.1, toString p.2])
    ++ [["Untagged", toString untagged_count]]
    ++ [[]]
    ++ [["Port/Protocol Combination Counts:"], ["Port", "Protocol", "Count"]]
    ++ port_protocol_counts.map (fun p => [p.1.1, p.1.2, toString p.2])

/-- Rendering of the row list to the bytes `csv.writer` emits
(comma-joined quoted fields, CRLF line terminator). -/
def renderCsv (rows : List (List String)) : String :=
  String.join (rows.map
    (fun r => String.intercalate "," (r.map quoteField) ++ "\r\n"))

/-- `main` (flow.py lines 121-136) without the file plumbing: build the
lookup table, process the flow-log lines, render the report. -/
def run (lookupRows : List Row) (flowLines : List String) :
    Except String String :=
  (parse_lookup_table lookupRows).map (fun lookup =>
    let st := parse_flow_logs lookup flowLines
    renderCsv (write_output st.tag_counts st.port_protocol_counts
      st.untagged_count))

/-- Total of all counter values in a counts map. -/
def sumCounts {α : Type} [DecidableEq α] (m : List (α × Nat)) : Nat :=
  (m.map Prod.snd).sum

/-- `tagTotal st` is the number of classified (non-dropped) records
accounted for so far: every tagged record sits in exactly one tag counter
and every untagged record in the untagged scalar. -/
def tagTotal (st : Counts) : Nat :=
  sumCounts st.tag_counts + st.untagged_count

theorem lookupGet_insertAssoc {α β : Type} [DecidableEq α]
    (m : List (α × β)) (k k' : α) (v : β) :
    lookupGet (insertAssoc m k v) k' =
      if k' = k then some v else lookupGet m k' := by
  induction m with
  | nil =>
    simp only [insertAssoc, lookupGet]
  | cons hd tl ih =>
    obtain ⟨k₀, v₀⟩ := hd
    simp only [insertAssoc]
    by_cases hk : k = k₀
    · subst hk
      by_cases h' : k' = k <;> simp [insertAssoc, lookupGet, h']
    · rw [if_neg hk]
      simp only [lookupGet, ih]
      by_cases h' : k' = k₀
      · subst h'
        rw [if_pos rfl, if_neg (fun h => hk h.symm), if_pos rfl]
      · rw [if_neg h', if_neg h']

theorem countOf_bump_self {α : Type} [DecidableEq α]
    (m : List (α × Nat)) (k : α) :
    countOf (bump m k) k = countOf m k + 1 := by
  induction m with
  | nil => simp [bump, countOf, lookupGet]
  | cons hd tl ih =>
    obtain ⟨k₀, v₀⟩ := hd
    simp only [bump]
    by_cases hk : k = k₀
    · subst hk
      simp [countOf, lookupGet]
    · rw [if_neg hk]
      simpa [countOf, lookupGet, if_neg hk] using ih

theorem countOf_bump_ne {α : Type} [DecidableEq α]
    (m : List (α × Nat)) (k k' : α) (h : k' ≠ k) :
    countOf (bump m k) k' = countOf m k' := by
  induction m with
  | nil => simp [bump, countOf, lookupGet, h]
  | cons hd tl ih =>
    obtain ⟨k₀, v₀⟩ := hd
    simp only [bump]
    by_cases hk : k = k₀
    · subst hk
      simp [countOf, lookupGet, if_neg h]
    · rw [if_neg hk]
      by_cases h' : k' = k₀
      · subst h'
        simp [countOf, lookupGet]
      · simpa [countOf, lookupGet, if_neg h'] using ih

theorem sumCounts_bump {α : Type} [DecidableEq α]
    (m : List (α × Nat)) (k : α) :
    sumCounts (bump m k) = sumCounts m + 1 := by
  induction m with
  | nil => simp [bump, sumCounts]
  | cons hd tl ih =>
    obtain ⟨k₀, v₀⟩ := hd
    simp only [bump]
    by_cases hk : k = k₀
    · subst hk
      simp [sumCounts]
      omega
    · rw [if_neg hk]
      simp only [sumCounts, List.map_cons, List.sum_cons] at ih ⊢
      omega

theorem keys_bump {α : Type} [DecidableEq α]
    (m : List (α × Nat)) (k : α) :
    (bump m k).map Prod.fst =
      if k ∈ m.map Prod.fst then m.map Prod.fst
      else m.map Prod.fst ++ [k] := by
  induction m with
  | nil => simp [bump]
  | cons hd tl ih =>
    obtain ⟨k₀, v₀⟩ := hd
    simp only [bump]
    by_cases hk : k = k₀
    · subst hk
      simp
    · rw [if_neg hk]
      simp only [List.map_cons, List.mem_cons]
      rw [ih]
      by_cases hmem : k ∈ tl.map Prod.fst
      · rw [if_pos hmem, if_pos (Or.inr hmem)]
      · rw [if_neg hmem, if_neg (by
          intro h
          rcases h with h | h
          · exact hk h
          · exact hmem h)]
        simp

theorem protocol_map_get (t : String) :
    lookupGet protocol_map t = if t = "6" then some "tcp" else none := by
  simp [protocol_map, lookupGet]

theorem processParts_drop (lookup : List ((String × String) × String))
    (st : Counts) (parts : List String) (h : parts.length < 13) :
    processParts lookup st parts = st := by
  simp [processParts, h]

theorem processParts_noProto (lookup : List ((String × String) × String))
    (st : Counts) (parts : List String) (hlen : ¬ parts.length < 13)
    (hp : lookupGet protocol_map (parts.getD 7 "") = none) :
    processParts lookup st parts =
      { st with untagged_count := st.untagged_count + 1 } := by
  simp only [List.getD_eq_getElem?_getD] at hp
  simp [processParts, hlen, hp]

theorem processParts_badPort (lookup : List ((String × String) × String))
    (st : Counts) (parts : List String) (proto : String)
    (hlen : ¬ parts.length < 13)
    (hp : lookupGet protocol_map (parts.getD 7 "") = some proto)
    (hmem : parts.getD 5 "" ∉ valid_ports) :
    processParts lookup st parts =
      { st with untagged_count := st.untagged_count + 1 } := by
  simp only [List.getD_eq_getElem?_getD] at hp hmem
  simp [processParts, hlen, hp, hmem]

theorem processParts_found (lookup : List ((String × String) × String))
    (st : Counts) (parts : List String) (proto tag : String)
    (hlen : ¬ parts.length < 13)
    (hp : lookupGet protocol_map (parts.getD 7 "") = some proto)
    (hmem : parts.getD 5 "" ∈ valid_ports)
    (hfound : lookupGet lookup (parts.getD 5 "", proto) = some tag)
    (htag : tag ≠ "Untagged") :
    processParts lookup st parts =
      { st with
        tag_counts := bump st.tag_counts tag,
        port_protocol_counts :=
          bump st.port_protocol_counts (parts.getD 5 "", proto) } := by
  simp only [List.getD_eq_getElem?_getD] at hp hmem hfound
  simp [processParts, hlen, hp, hmem, hfound, htag]

theorem processParts_miss (lookup : List ((String × String) × String))
    (st : Counts) (parts : List String) (proto : String)
    (hlen : ¬ parts.length < 13)
    (hp : lookupGet protocol_map (parts.getD 7 "") = some proto)
    (hmem : parts.getD 5 "" ∈ valid_ports)
    (hmiss : lookupGet lookup (parts.getD 5 "", proto) = none) :
    processParts lookup st parts =
      { st with
        untagged_count := st.untagged_count + 1,
        port_protocol_counts :=
          bump st.port_protocol_counts (parts.getD 5 "", proto) } := by
  simp only [List.getD_eq_getElem?_getD] at hp hmem hmiss
  simp [processParts, hlen, hp, hmem, hmiss]

theorem processParts_sentinel (lookup : List ((String × String) × String))
    (st : Counts) (parts : List String) (proto : String)
    (hlen : ¬ parts.length < 13)
    (hp : lookupGet protocol_map (parts.getD 7 "") = some proto)
    (hmem : parts.getD 5 "" ∈ valid_ports)
    (hfound : lookupGet lookup (parts.getD 5 "", proto) = some "Untagged") :
    processParts lookup st parts =
      { st with
        untagged_count := st.untagged_count + 1,
        port_protocol_counts :=
          bump st.port_protocol_counts (parts.getD 5 "", proto) } := by
  simp only [List.getD_eq_getElem?_getD] at hp hmem hfound
  simp [processParts, hlen, hp, hmem, hfound]

theorem processLine_eq (lookup : List ((String × String) × String))
    (st : Counts) (line : String) :
    processLine lookup st line = processParts lookup st (splitWs line) := rfl

/-- A 13-token flow-log line with destination port `80` (token index 5)
and protocol code `6` (token index 7). -/
def exLine : String :=
  "2 123456789012 eni-0a1b2c3d 10.0.1.201 198.51.100.2 80 49153 6 25 20000 1620140761 1620140821 ACCEPT"

/-- A lookup table whose single entry carries the sentinel string
`"Untagged"` as its tag. -/
def exLookupSentinel : List ((String × String) × String) :=
  [(("80", "tcp"), "Untagged")]

/-- A lookup table mapping `("80", "tcp")` to the tag `"sv_P1"`. -/
def exLookupWeb : List ((String × String) × String) :=
  [(("80", "tcp"), "sv_P1")]

/-- C2: a flow-log line whose whitespace split has fewer than 13 tokens is
dropped — processing it leaves every counter (tag counts, pair counts and
the untagged scalar) unchanged. -/
theorem c2_short_line_dropped (lookup : List ((String × String) × String))
    (st : Counts) (line : String) (h : (splitWs line).length < 13) :
    processLine lookup st line = st := by
  rw [processLine_eq]
  exact processParts_drop lookup st (splitWs line) h

theorem c2_short_line_dropped_witness :
    (splitWs "2 123 eni-0 10.0.1.201 80 6 REJECT").length < 13 ∧
    processLine exLookupWeb initCounts "2 123 eni-0 10.0.1.201 80 6 REJECT"
      = initCounts :=
  ⟨by decide,
   c2_short_line_dropped exLookupWeb initCounts
     "2 123 eni-0 10.0.1.201 80 6 REJECT" (by decide)⟩

/-- C1 fails as stated: when the lookup table's entry for the (port, "tcp")
key carries the literal tag string `"Untagged"`, the code's
`lookup.get(key, "Untagged")` sentinel makes the record count as untagged —
the tag's counter is not incremented and the untagged scalar changes, on a
13-token line with port token "80" and protocol token "6" whose key the
table does contain. -/
theorem c1_counterexample :
    13 ≤ (splitWs exLine).length ∧
    (splitWs exLine).getD 7 "" = "6" ∧
    (splitWs exLine).getD 5 "" = "80" ∧
    "80" ∈ valid_ports ∧
    lookupGet exLookupSentinel ("80", "tcp") = some "Untagged" ∧
    ¬ (countOf (processLine exLookupSentinel initCounts exLine).tag_counts
          "Untagged"
        = countOf initCounts.tag_counts "Untagged" + 1 ∧
       (processLine exLookupSentinel initCounts exLine).untagged_count
        = initCounts.untagged_count) := by
  decide

/-- C1 (amended): for a flow-log line whose whitespace split has at least
13 tokens, token 7 is "6" and token 5 is a valid port, if the lookup table
maps (that port, "tcp") to a tag and that tag is not the literal string
"Untagged", then processing increments that tag's counter by one and the
(port, "tcp") pair counter by one, and leaves the untagged scalar
unchanged. -/
theorem c1_tagged_increment (lookup : List ((String × String) × String))
    (st : Counts) (line : String) (tag : String)
    (hlen : 13 ≤ (splitWs line).length)
    (h7 : (splitWs line).getD 7 "" = "6")
    (h5 : (splitWs line).getD 5 "" ∈ valid_ports)
    (hfound : lookupGet lookup ((splitWs line).getD 5 "", "tcp") = some tag)
    (htag : tag ≠ "Untagged") :
    countOf (processLine lookup st line).tag_counts tag
      = countOf st.tag_counts tag + 1 ∧
    countOf (processLine lookup st line).port_protocol_counts
        ((splitWs line).getD 5 "", "tcp")
      = countOf st.port_protocol_counts ((splitWs line).getD 5 "", "tcp") + 1 ∧
    (processLine lookup st line).untagged_count = st.untagged_count := by
  rw [processLine_eq,
    processParts_found lookup st (splitWs line) "tcp" tag
      (by omega) (by rw [h7]; decide) h5 hfound htag]
  exact ⟨countOf_bump_self _ _, countOf_bump_self _ _, rfl⟩

theorem c1_tagged_increment_witness :
    countOf (processLine exLookupWeb initCounts exLine).tag_counts "sv_P1"
      = countOf initCounts.tag_counts "sv_P1" + 1 ∧
    countOf (processLine exLookupWeb initCounts exLine).port_protocol_counts
        ((splitWs exLine).getD 5 "", "tcp")
      = countOf initCounts.port_protocol_counts
          ((splitWs exLine).getD 5 "", "tcp") + 1 ∧
    (processLine exLookupWeb initCounts exLine).untagged_count
      = initCounts.untagged_count :=
  c1_tagged_increment exLookupWeb initCounts exLine "sv_P1"
    (by decide) (by decide) (by decide) (by decide) (by decide)

/-- C3: for a 13-token-or-longer line with protocol token "6" and a valid
port token whose (port, "tcp") key is absent from the lookup table, the
untagged scalar and the (port, "tcp") pair counter each grow by exactly
one while the tag counters are untouched. -/
theorem c3_lookup_miss (lookup : List ((String × String) × String))
    (st : Counts) (line : String)
    (hlen : 13 ≤ (splitWs line).length)
    (h7 : (splitWs line).getD 7 "" = "6")
    (h5 : (splitWs line).getD 5 "" ∈ valid_ports)
    (hmiss : lookupGet lookup ((splitWs line).getD 5 "", "tcp") = none) :
    (processLine lookup st line).untagged_count = st.untagged_count + 1 ∧
    countOf (processLine lookup st line).port_protocol_counts
        ((splitWs line).getD 5 "", "tcp")
      = countOf st.port_protocol_counts ((splitWs line).getD 5 "", "tcp") + 1 ∧
    (processLine lookup st line).tag_counts = st.tag_counts := by
  rw [processLine_eq,
    processParts_miss lookup st (splitWs line) "tcp"
      (by omega) (by rw [h7]; decide) h5 hmiss]
  exact ⟨rfl, countOf_bump_self _ _, rfl⟩

theorem c3_lookup_miss_witness :
    (processLine [] initCounts exLine).untagged_count
      = initCounts.untagged_count + 1 ∧
    countOf (processLine [] initCounts exLine).port_protocol_counts
        ((splitWs exLine).getD 5 "", "tcp")
      = countOf initCounts.port_protocol_counts
          ((splitWs exLine).getD 5 "", "tcp") + 1 ∧
    (processLine [] initCounts exLine).tag_counts = initCounts.tag_counts :=
  c3_lookup_miss [] initCounts exLine
    (by decide) (by decide) (by decide) (by decide)

/-- C4: for a 13-token-or-longer line whose protocol token is anything but
"6", or whose port token is outside the valid-port set, only the untagged
scalar grows (by one); tag counters and pair counters are untouched. -/
theorem c4_filtered_untagged (lookup : List ((String × String) × String))
    (st : Counts) (line : String)
    (hlen : 13 ≤ (splitWs line).length)
    (h : (splitWs line).getD 7 "" ≠ "6" ∨
         (splitWs line).getD 5 "" ∉ valid_ports) :
    processLine lookup st line
      = { st with untagged_count := st.untagged_count + 1 } := by
  rw [processLine_eq]
  rcases h with h | h
  · exact processParts_noProto lookup st (splitWs line) (by omega)
      (by rw [protocol_map_get, if_neg h])
  · cases hp : lookupGet protocol_map ((splitWs line).getD 7 "") with
    | none => exact processParts_noProto lookup st (splitWs line) (by omega) hp
    | some proto =>
        exact processParts_badPort lookup st (splitWs line) proto
          (by omega) hp h

theorem c4_filtered_untagged_witness :
    processLine exLookupWeb initCounts
        "2 123456789012 eni-0a1b2c3d 10.0.1.201 198.51.100.2 80 49153 17 25 20000 1620140761 1620140821 ACCEPT"
      = { initCounts with untagged_count := initCounts.untagged_count + 1 } :=
  c4_filtered_untagged exLookupWeb initCounts
    "2 123456789012 eni-0a1b2c3d 10.0.1.201 198.51.100.2 80 49153 17 25 20000 1620140761 1620140821 ACCEPT"
    (by decide) (Or.inl (by decide))

theorem countOf_le_bump {α : Type} [DecidableEq α]
    (m : List (α × Nat)) (k t : α) :
    countOf m t ≤ countOf (bump m k) t := by
  by_cases h : t = k
  · subst h
    rw [countOf_bump_self]
    omega
  · rw [countOf_bump_ne _ _ _ h]

/-- On a structurally valid (≥ 13 token) line, the loop body lands in one
of exactly three shapes: untagged with no pair bump (filter branch),
untagged with a pair bump (lookup miss or sentinel tag), or a single tag
bump with a pair bump (tagged). -/
theorem processParts_shape (lookup : List ((String × String) × String))
    (st : Counts) (parts : List String) (hlen : ¬ parts.length < 13) :
    processParts lookup st parts
      = { st with untagged_count := st.untagged_count + 1 } ∨
    (∃ key, processParts lookup st parts
      = { st with
          untagged_count := st.untagged_count + 1,
          port_protocol_counts := bump st.port_protocol_counts key }) ∨
    (∃ tag key, tag ≠ "Untagged" ∧ processParts lookup st parts
      = { st with
          tag_counts := bump st.tag_counts tag,
          port_protocol_counts := bump st.port_protocol_counts key }) := by
  cases hp : lookupGet protocol_map (parts.getD 7 "") with
  | none => exact Or.inl (processParts_noProto _ _ _ hlen hp)
  | some proto =>
    by_cases hmem : parts.getD 5 "" ∈ valid_ports
    · cases hl : lookupGet lookup (parts.getD 5 "", proto) with
      | none =>
          exact Or.inr (Or.inl ⟨_, processParts_miss _ _ _ _ hlen hp hmem hl⟩)
      | some tag =>
        by_cases htag : tag = "Untagged"
        · subst htag
          exact Or.inr
            (Or.inl ⟨_, processParts_sentinel _ _ _ _ hlen hp hmem hl⟩)
        · exact Or.inr (Or.inr
            ⟨tag, _, htag, processParts_found _ _ _ _ _ hlen hp hmem hl htag⟩)
    · exact Or.inl (processParts_badPort _ _ _ _ hlen hp hmem)

theorem tagTotal_processParts (lookup : List ((String × String) × String))
    (st : Counts) (parts : List String) :
    tagTotal (processParts lookup st parts)
      = tagTotal st + (if 13 ≤ parts.length then 1 else 0) := by
  by_cases hlen : parts.length < 13
  · rw [processParts_drop _ _ _ hlen, if_neg (by omega)]
    omega
  · rw [if_pos (by omega)]
    rcases processParts_shape lookup st parts hlen with h | ⟨key, h⟩ |
      ⟨tag, key, _, h⟩ <;> rw [h] <;> simp [tagTotal, sumCounts_bump] <;> omega

theorem tagTotal_foldl (lookup : List ((String × String) × String))
    (lines : List String) (st : Counts) :
    tagTotal (lines.foldl (processLine lookup) st)
      = tagTotal st
        + (lines.filter (fun l => 13 ≤ (splitWs l).length)).length := by
  induction lines generalizing st with
  | nil => simp
  | cons l ls ih =>
    simp only [List.foldl_cons, List.filter_cons]
    rw [ih, processLine_eq, tagTotal_processParts]
    by_cases h : 13 ≤ (splitWs l).length
    · simp [h]
      omega
    · simp [h]

/-- C10: conservation. (a) Each structurally valid line increments exactly
one member of {a single tag counter, the untagged scalar} by exactly one;
(b) every counter is monotone under each processing step; (c) over a full
pass, the sum of all tag counts plus the untagged scalar equals the number
of ≥13-token input lines. -/
theorem c10_conservation :
    (∀ (lookup : List ((String × String) × String)) (st : Counts)
        (parts : List String), 13 ≤ parts.length →
      ((∃ tag, countOf (processParts lookup st parts).tag_counts tag
            = countOf st.tag_counts tag + 1 ∧
          (∀ t, t ≠ tag →
            countOf (processParts lookup st parts).tag_counts t
              = countOf st.tag_counts t) ∧
          (processParts lookup st parts).untagged_count
            = st.untagged_count) ∨
        ((processParts lookup st parts).untagged_count
            = st.untagged_count + 1 ∧
          (processParts lookup st parts).tag_counts = st.tag_counts)) ∧
      tagTotal (processParts lookup st parts) = tagTotal st + 1) ∧
    (∀ (lookup : List ((String × String) × String)) (st : Counts)
        (parts : List String),
      (∀ t, countOf st.tag_counts t
          ≤ countOf (processParts lookup st parts).tag_counts t) ∧
      (∀ pr, countOf st.port_protocol_counts pr
          ≤ countOf (processParts lookup st parts).port_protocol_counts pr) ∧
      st.untagged_count ≤ (processParts lookup st parts).untagged_count) ∧
    (∀ (lookup : List ((String × String) × String)) (lines : List String),
      tagTotal (parse_flow_logs lookup lines)
        = (lines.filter (fun l => 13 ≤ (splitWs l).length)).length) := by
  refine ⟨?_, ?_, ?_⟩
  · intro lookup st parts hlen
    constructor
    · rcases processParts_shape lookup st parts (by omega) with h | ⟨key, h⟩ |
        ⟨tag, key, _, h⟩
      · exact Or.inr (by rw [h]; exact ⟨rfl, rfl⟩)
      · exact Or.inr (by rw [h]; exact ⟨rfl, rfl⟩)
      · refine Or.inl ⟨tag, ?_, ?_, ?_⟩ <;> rw [h]
        · exact countOf_bump_self _ _
        · exact fun t ht => countOf_bump_ne _ _ _ ht
    · rw [tagTotal_processParts, if_pos hlen]
  · intro lookup st parts
    by_cases hlen : parts.length < 13
    · rw [processParts_drop _ _ _ hlen]
      exact ⟨fun _ => le_refl _, fun _ => le_refl _, le_refl _⟩
    · rcases processParts_shape lookup st parts hlen with h | ⟨key, h⟩ |
        ⟨tag, key, _, h⟩ <;> rw [h]
      · exact ⟨fun _ => le_refl _, fun _ => le_refl _, Nat.le_succ _⟩
      · exact ⟨fun _ => le_refl _, fun pr => countOf_le_bump _ _ _,
          Nat.le_succ _⟩
      · exact ⟨fun t => countOf_le_bump _ _ _,
          fun pr => countOf_le_bump _ _ _, le_refl _⟩
  · intro lookup lines
    rw [parse_flow_logs, tagTotal_foldl]
    simp [tagTotal, initCounts, sumCounts]

theorem c10_conservation_witness :
    tagTotal (processParts exLookupWeb initCounts (splitWs exLine))
      = tagTotal initCounts + 1 ∧
    tagTotal (parse_flow_logs exLookupWeb [exLine, "1 2 3"])
      = ([exLine, "1 2 3"].filter
          (fun l => 13 ≤ (splitWs l).length)).length :=
  ⟨(c10_conservation.1 exLookupWeb initCounts (splitWs exLine) (by decide)).2,
   c10_conservation.2.2 exLookupWeb [exLine, "1 2 3"]⟩

theorem parse_lookup_aux_spec (rows : List Row) :
    ∀ init : List ((String × String) × String),
    (∀ r ∈ rows, rowOk r) →
    ∃ t, parse_lookup_aux init rows = Except.ok t ∧
      ∀ k, lookupGet t k =
        match lastTagFor rows k with
        | some tg => some tg
        | none => lookupGet init k := by
  induction rows with
  | nil =>
    intro init _
    exact ⟨init, rfl, fun k => rfl⟩
  | cons r rest ih =>
    intro init h
    have hr : rowOk r := h r (List.mem_cons_self r rest)
    rw [rowOk, Bool.and_eq_true, Bool.and_eq_true] at hr
    obtain ⟨⟨hdp, hpr⟩, htg⟩ := hr
    obtain ⟨dp, hdp⟩ := Option.isSome_iff_exists.mp hdp
    obtain ⟨pr, hpr⟩ := Option.isSome_iff_exists.mp hpr
    obtain ⟨tg, htg⟩ := Option.isSome_iff_exists.mp htg
    obtain ⟨t, hfold, hspec⟩ :=
      ih (insertAssoc init (dp, pyLower pr) tg)
        (fun r' hr' => h r' (List.mem_cons_of_mem _ hr'))
    refine ⟨t, ?_, ?_⟩
    · rw [parse_lookup_aux, hdp, hpr, htg]
      exact hfold
    · intro k
      rw [hspec k]
      have hkey : keyOf r = some (dp, pyLower pr) := by
        rw [keyOf, hdp, hpr]
      cases hrest : lastTagFor rest k with
      | some tg' => simp [lastTagFor, hrest]
      | none =>
        simp only [lastTagFor, hrest]
        rw [lookupGet_insertAssoc, hkey]
        by_cases hk : k = (dp, pyLower pr)
        · subst hk
          simp [htg]
        · rw [if_neg hk, if_neg (by
            intro hcon
            exact hk (by injection hcon with h'; exact h'.symm))]

theorem lastTagFor_eq_none (rows : List Row) (k : String × String)
    (h : ∀ r ∈ rows, keyOf r ≠ some k) :
    lastTagFor rows k = none := by
  induction rows with
  | nil => rfl
  | cons r rest ih =>
    rw [lastTagFor,
      ih (fun r' hr' => h r' (List.mem_cons_of_mem _ hr')),
      if_neg (h r (List.mem_cons_self r rest))]

theorem lastTagFor_distinct (rows : List Row) :
    ∀ r ∈ rows, (rows.map keyOf).Nodup → rowOk r →
    ∀ k, keyOf r = some k → lastTagFor rows k = getField r "tag" := by
  induction rows with
  | nil =>
    intro r hr
    cases hr
  | cons r0 rest ih =>
    intro r hr hdist hok k hk
    rw [List.map_cons, List.nodup_cons] at hdist
    rcases List.mem_cons.mp hr with rfl | hmem
    · have hnone : lastTagFor rest k = none := by
        refine lastTagFor_eq_none rest k (fun r' hr' hcon => ?_)
        exact hdist.1 (by rw [hk, ← hcon]; exact List.mem_map_of_mem keyOf hr')
      rw [lastTagFor, hnone, if_pos hk]
    · have htail := ih r hmem hdist.2 hok k hk
      rw [rowOk, Bool.and_eq_true, Bool.and_eq_true] at hok
      obtain ⟨tg, htg⟩ := Option.isSome_iff_exists.mp hok.2
      rw [lastTagFor, htail, htg]

/-- C5: when every lookup row has its three fields and all
(dstport, lowercased protocol) keys are pairwise distinct, construction
succeeds and the table answers each row's key with exactly that row's tag;
and ports are compared as literal strings — a table built from port
`"080"` does not answer a lookup for `"80"`. -/
theorem c5_distinct_lookup (rows : List Row)
    (hok : ∀ r ∈ rows, rowOk r)
    (hdist : (rows.map keyOf).Nodup) :
    (∃ t, parse_lookup_table rows = Except.ok t ∧
      ∀ r ∈ rows, ∀ k, keyOf r = some k →
        lookupGet t k = getField r "tag") ∧
    (∃ t, parse_lookup_table
        [[("dstport", "080"), ("protocol", "tcp"), ("tag", "sv_X")]]
        = Except.ok t ∧
      lookupGet t ("080", "tcp") = some "sv_X" ∧
      lookupGet t ("80", "tcp") = none) := by
  constructor
  · obtain ⟨t, hp, hspec⟩ := parse_lookup_aux_spec rows [] hok
    refine ⟨t, hp, fun r hr k hk => ?_⟩
    rw [hspec k, lastTagFor_distinct rows r hr hdist (hok r hr) k hk]
    obtain ⟨tg, htg⟩ := Option.isSome_iff_exists.mp (by
      have h' := hok r hr
      rw [rowOk, Bool.and_eq_true, Bool.and_eq_true] at h'
      exact h'.2)
    rw [htg]
  · exact ⟨[(("080", "tcp"), "sv_X")], rfl, by decide, by decide⟩

/-- Two rows for the same ("25", "tcp") key (the second via uppercase
"TCP"), with different tags. -/
def exRowsDup : List Row :=
  [[("dstport", "25"), ("protocol", "tcp"), ("tag", "sv_P1")],
   [("dstport", "25"), ("protocol", "TCP"), ("tag", "sv_P2")]]

theorem c5_distinct_lookup_witness :
    (∃ t, parse_lookup_table
        [[("dstport", "80"), ("protocol", "tcp"), ("tag", "sv_P1")],
         [("dstport", "443"), ("protocol", "tcp"), ("tag", "sv_P2")]]
        = Except.ok t ∧
      ∀ r ∈ ([[("dstport", "80"), ("protocol", "tcp"), ("tag", "sv_P1")],
              [("dstport", "443"), ("protocol", "tcp"), ("tag", "sv_P2")]] :
              List Row), ∀ k, keyOf r = some k →
        lookupGet t k = getField r "tag") ∧
    (∃ t, parse_lookup_table
        [[("dstport", "080"), ("protocol", "tcp"), ("tag", "sv_X")]]
        = Except.ok t ∧
      lookupGet t ("080", "tcp") = some "sv_X" ∧
      lookupGet t ("80", "tcp") = none) :=
  c5_distinct_lookup
    [[("dstport", "80"), ("protocol", "tcp"), ("tag", "sv_P1")],
     [("dstport", "443"), ("protocol", "tcp"), ("tag", "sv_P2")]]
    (by decide) (by decide)

/-- C6: with all fields present (duplicate keys allowed), construction
succeeds without error, and each key reads back the tag of the last row
bearing it (last-write-wins). -/
theorem c6_last_write_wins (rows : List Row)
    (hok : ∀ r ∈ rows, rowOk r) :
    ∃ t, parse_lookup_table rows = Except.ok t ∧
      ∀ k, lookupGet t k = lastTagFor rows k := by
  obtain ⟨t, hp, hspec⟩ := parse_lookup_aux_spec rows [] hok
  refine ⟨t, hp, fun k => ?_⟩
  rw [hspec k]
  cases lastTagFor rows k <;> rfl

theorem c6_last_write_wins_witness :
    (∃ t, parse_lookup_table exRowsDup = Except.ok t ∧
      ∀ k, lookupGet t k = lastTagFor exRowsDup k) ∧
    lastTagFor exRowsDup ("25", "tcp") = some "sv_P2" :=
  ⟨c6_last_write_wins exRowsDup (by decide), by decide⟩

theorem parse_lookup_aux_error (rows : List Row) :
    ∀ init : List ((String × String) × String),
    (∃ r ∈ rows, getField r "dstport" = none ∨
      getField r "protocol" = none ∨ getField r "tag" = none) →
    parse_lookup_aux init rows = Except.error "KeyError" := by
  induction rows with
  | nil =>
    intro init h
    obtain ⟨r, hr, _⟩ := h
    cases hr
  | cons r0 rest ih =>
    intro init h
    obtain ⟨r, hr, hbad⟩ := h
    cases ha : getField r0 "dstport" with
    | none => rw [parse_lookup_aux, ha]
    | some dp =>
      cases hb : getField r0 "protocol" with
      | none => rw [parse_lookup_aux, ha, hb]
      | some pr =>
        cases hc : getField r0 "tag" with
        | none => rw [parse_lookup_aux, ha, hb, hc]
        | some tg =>
          rw [parse_lookup_aux, ha, hb, hc]
          rcases List.mem_cons.mp hr with rfl | hmem
          · rcases hbad with hx | hx | hx
            · rw [ha] at hx
              cases hx
            · rw [hb] at hx
              cases hx
            · rw [hc] at hx
              cases hx
          · exact ih _ ⟨r, hmem, hbad⟩

/-- C7: a lookup-row input containing a row that lacks the dstport,
protocol, or tag field makes table construction abort with a hard error;
no table is produced. -/
theorem c7_malformed_row_fatal (rows : List Row)
    (h : ∃ r ∈ rows, getField r "dstport" = none ∨
      getField r "protocol" = none ∨ getField r "tag" = none) :
    parse_lookup_table rows = Except.error "KeyError" :=
  parse_lookup_aux_error rows [] h

theorem c7_malformed_row_fatal_witness :
    parse_lookup_table
        [[("dstport", "80"), ("protocol", "tcp"), ("tag", "sv_P1")],
         [("dstport", "25"), ("tag", "sv_P2")]]
      = Except.error "KeyError" :=
  c7_malformed_row_fatal
    [[("dstport", "80"), ("protocol", "tcp"), ("tag", "sv_P1")],
     [("dstport", "25"), ("tag", "sv_P2")]]
    ⟨[("dstport", "25"), ("tag", "sv_P2")], by decide, by decide⟩

/-- C8: the pipeline is deterministic — two runs over identical lookup-table
input and identical flow-log input produce byte-identical rendered reports.
The within-run row order is fixed by the input alone: the counts maps are
insertion-ordered association lists mutated only by `bump`, and the
renderer walks them in stored order. -/
theorem c8_deterministic (lr1 lr2 : List Row) (fl1 fl2 : List String)
    (hl : lr1 = lr2) (hf : fl1 = fl2) :
    run lr1 fl1 = run lr2 fl2 := by
  rw [hl, hf]

theorem c8_deterministic_witness :
    run [[("dstport", "80"), ("protocol", "tcp"), ("tag", "sv_P1")]] [exLine]
      = run [[("dstport", "80"), ("protocol", "tcp"), ("tag", "sv_P1")]]
          [exLine] :=
  c8_deterministic _ _ _ _ rfl rfl

/-- C9: the rendered report is, in order: the "Tag Counts:" row, the
Tag/Count header, one row per stored tag with its count, the "Untagged"
row with the untagged scalar, a blank separator row, the
"Port/Protocol Combination Counts:" row, the Port/Protocol/Count header,
and one row per stored (port, protocol) pair with its count — with no
sorting; and the stored order of the counts maps is first-observation
order, since a `bump` keeps existing keys in place and appends a new key
at the end. -/
theorem c9_report_layout :
    (∀ (tc : List (String × Nat)) (pc : List ((String × String) × Nat))
        (u : Nat),
      write_output tc pc u
        = [["Tag Counts:"], ["Tag", "Count"]]
          ++ tc.map (fun p => [p.1, toString p.2])
          ++ [["Untagged", toString u]]
          ++ [[]]
          ++ [["Port/Protocol Combination Counts:"],
              ["Port", "Protocol", "Count"]]
          ++ pc.map (fun p => [p.1.1, p.1.2, toString p.2])) ∧
    (∀ (α : Type) [_inst : DecidableEq α] (m : List (α × Nat)) (k : α),
      (bump m k).map Prod.fst
        = if k ∈ m.map Prod.fst then m.map Prod.fst
          else m.map Prod.fst ++ [k]) :=
  ⟨fun _ _ _ => rfl, fun _ _ m k => keys_bump m k⟩

end Flow
